import Mathlib

/-!
# Verification of the lustro polling/state/dedup/alert engine

Shallow embedding of the core of the `lustro` repository
(`src/lustro/breaking.py`, `src/lustro/state.py`, `src/lustro/log.py`,
`src/lustro/fetcher.py`, `src/lustro/cli.py`) together with theorems that
settle the specification claims about it.

Conventions of the embedding:

* Python strings are Lean `String` / `List Char`; matching restricted to the
  ASCII behaviour of Python's `re` module (`\w`, `\s`, `\d` on ASCII), which
  covers every string the classifier vocabularies can match.
* `datetime` instants are modelled as a count of seconds together with an
  optional UTC offset (`tzinfo`); `fromisoformat` is an explicit parameter
  wherever the source calls it, since it is standard-library behaviour.
* JSON-dict shaped state is modelled with explicit record types, with the
  defaulting rules of the load path.
-/

namespace Lustro

/-! ## Character classes (ASCII fragment of Python `re`) -/

/-- Python regex `\w` on the ASCII range: letters, digits, underscore. -/
def isWordChar (c : Char) : Bool := c.isAlphanum || c == '_'

/-- Python regex `\s` on the ASCII range. -/
def isSpaceChar (c : Char) : Bool :=
  c == ' ' || c == '\t' || c == '\n' || c == '\r' || c == '\x0b' || c == '\x0c'

/-! ## A small matcher for the classifier vocabularies

The three vocabularies in `breaking.py` (`ENTITIES`, `ACTIONS`, `NEGATIVE`)
are case-insensitive alternations of simple sequences: literal characters,
single-character classes, optional single characters, and word-boundary
assertions.  `Tok` represents one such element; a pattern is a `List Tok`;
`search` is `re.search` (does any position admit a match). -/

inductive Tok where
  /-- consume exactly one character satisfying the predicate -/
  | one (p : Char → Bool)
  /-- optionally consume one character satisfying the predicate -/
  | opt (p : Char → Bool)
  /-- word-boundary assertion `\b` (consumes nothing) -/
  | wb

/-- Python `\b`: the previous and next characters differ in word-ness
(start/end of string count as non-word). -/
def isBoundary (prev : Option Char) (s : List Char) : Bool :=
  let a := match prev with | none => false | some c => isWordChar c
  let b := match s with | [] => false | c :: _ => isWordChar c
  a != b

/-- Match a token sequence at the start of `s`; `prev` is the character just
before `s` (for boundary assertions).  Optional tokens try both branches, so
this is the existential (search) semantics of the regex fragment. -/
def matchToks : List Tok → Option Char → List Char → Bool
  | [], _, _ => true
  | Tok.wb :: ts, prev, s => isBoundary prev s && matchToks ts prev s
  | Tok.one _ :: _, _, [] => false
  | Tok.one p :: ts, _, c :: rest => p c && matchToks ts (some c) rest
  | Tok.opt p :: ts, prev, s =>
    (match s with
     | [] => matchToks ts prev s
     | c :: rest => (p c && matchToks ts (some c) rest) || matchToks ts prev s)

/-- Does the token sequence match starting at some position of `s`?
`prev` is the character before the current position. -/
def searchFrom (toks : List Tok) (prev : Option Char) : List Char → Bool
  | [] => matchToks toks prev []
  | c :: rest => matchToks toks prev (c :: rest) || searchFrom toks (some c) rest

/-- `re.search` of one alternative over the whole string. -/
def search (toks : List Tok) (s : List Char) : Bool := searchFrom toks none s

/-- `re.search` of an alternation: any alternative matches somewhere. -/
def searchAny (alts : List (List Tok)) (s : List Char) : Bool :=
  alts.any (fun alt => search alt s)

/-! Helpers to write the vocabularies compactly. -/

/-- Literal character token. -/
def litc (c : Char) : Tok := Tok.one (fun x => x == c)

/-- A literal word as a token sequence. -/
def lits (s : String) : List Tok := s.data.map litc

/-- `\s?` -/
def optSpace : Tok := Tok.opt isSpaceChar

/-- `[-\s]?` -/
def optDashSpace : Tok := Tok.opt (fun c => c == '-' || isSpaceChar c)

/-- `\d` -/
def digitTok : Tok := Tok.one Char.isDigit

/-- `.?` (any character but newline, optional) -/
def optAny : Tok := Tok.opt (fun c => c != '\n')

/-- Wrap an alternative with the group-level leading and trailing `\b`. -/
def wbBoth (core : List Tok) : List Tok := Tok.wb :: core ++ [Tok.wb]

/-- Wrap an alternative with only the group-level leading `\b`. -/
def wbLead (core : List Tok) : List Tok := Tok.wb :: core

/-! ## The vocabularies of `breaking.py`

Transcribed alternative-by-alternative from the `ENTITIES`, `ACTIONS` and
`NEGATIVE` regexes (lines 24-50 of `src/lustro/breaking.py`).  `(?i)` is
realised by lower-casing the input before matching; `ENTITIES` and
`NEGATIVE` carry a trailing `\b` after the group, `ACTIONS` does not.
Note `[s\b]` inside a character class: there `\b` is the backspace
character `\x08`. -/

def ENTITIES : List (List Tok) :=
  [ wbBoth (lits "anthropic"),
    wbBoth (lits "openai"),
    wbBoth (lits "open" ++ [optSpace] ++ lits "ai"),
    wbBoth (lits "google" ++ [optSpace] ++ lits "deepmind"),
    wbBoth (lits "deepmind"),
    wbBoth (lits "meta" ++ [optSpace] ++ lits "ai"),
    wbBoth (lits "mistral"),
    wbBoth (litc 'x' :: Tok.opt (fun c => c == '.') :: lits "ai"),
    wbBoth (lits "grok"),
    wbBoth (lits "hkma"),
    wbBoth (lits "mas"),
    wbBoth (lits "sec"),
    wbBoth (lits "eu" ++ [optSpace] ++ lits "ai" ++ [optSpace] ++ lits "act"),
    wbBoth (lits "pboc"),
    wbBoth (lits "gpt" ++ [optDashSpace, digitTok]),
    wbBoth (lits "claude" ++ [optDashSpace, digitTok]),
    wbBoth (lits "gemini" ++ [optDashSpace, digitTok]),
    wbBoth (lits "llama" ++ [optDashSpace, digitTok]),
    wbBoth [litc 'o', Tok.one (fun c => '1' ≤ c && c ≤ '9'),
            Tok.one (fun c => c == '-' || isSpaceChar c)],
    wbBoth (lits "sonnet"),
    wbBoth (lits "opus"),
    wbBoth (lits "haiku") ]

def ACTIONS : List (List Tok) :=
  [ wbLead (lits "launch"),
    wbLead (lits "launches"),
    wbLead (lits "launched"),
    wbLead (lits "release"),
    wbLead (lits "releases"),
    wbLead (lits "released"),
    wbLead (lits "introduc"),
    wbLead (lits "announc"),
    wbLead (lits "unveil"),
    wbLead (lits "open" ++ [optAny] ++ lits "sourc"),
    wbLead (lits "acquir"),
    wbLead (lits "merg"),
    wbLead (lits "shut" ++ [optAny] ++ lits "down"),
    wbLead (lits "ban" ++ [Tok.one (fun c => c == 's' || c == '\x08')]),
    wbLead (lits "mandat") ]

def NEGATIVE : List (List Tok) :=
  [ wbBoth (lits "partner"),
    wbBoth (lits "collaborat"),
    wbBoth (lits "hiring"),
    wbBoth (lits "hire" ++ [Tok.one (fun c => c == 's' || c == 'd')]),
    wbBoth (lits "recrui"),
    wbBoth (lits "podcast"),
    wbBoth (lits "interview"),
    wbBoth (lits "webinar"),
    wbBoth (lits "round"),
    wbBoth (lits "funding"),
    wbBoth (lits "series" ++ [Tok.one isSpaceChar, Tok.one (fun c => 'a' ≤ c && c ≤ 'd')]) ]

/-- Lower-cased character list of a string (realises `(?i)`). -/
def lowerData (s : String) : List Char := s.data.map Char.toLower

/-- `ENTITIES.search(title)` as a Boolean. -/
def entitiesSearch (title : String) : Bool := searchAny ENTITIES (lowerData title)

/-- `ACTIONS.search(title)` as a Boolean. -/
def actionsSearch (title : String) : Bool := searchAny ACTIONS (lowerData title)

/-- `NEGATIVE.search(title)` as a Boolean. -/
def negativeSearch (title : String) : Bool := searchAny NEGATIVE (lowerData title)

/-- `is_breaking` (breaking.py lines 53-60), with the source's early-return
structure. -/
def is_breaking (title : String) : Bool :=
  if !entitiesSearch title then false
  else if !actionsSearch title then false
  else if negativeSearch title then false
  else true

/-! ## Title signature (`log.py`, `_title_prefix`, lines 31-34)

`re.sub(r"[^\w\s]", "", title.lower()).split()`, keep words longer than two
characters, take the first six, join with single spaces. -/

/-- `re.sub(r"[^\w\s]", "", title.lower())` on the ASCII fragment. -/
def normChars (s : String) : List Char :=
  (s.data.map Char.toLower).filter (fun c => isWordChar c || isSpaceChar c)

/-- Python `str.split()` (split on whitespace runs, dropping empties);
`cur` accumulates the current word reversed. -/
def splitWsGo : List Char → List Char → List (List Char)
  | [], cur => if cur.isEmpty then [] else [cur.reverse]
  | c :: rest, cur =>
    if isSpaceChar c then
      if cur.isEmpty then splitWsGo rest [] else cur.reverse :: splitWsGo rest []
    else splitWsGo rest (c :: cur)

def splitWs (s : List Char) : List (List Char) := splitWsGo s []

/-- The normalized title signature of `log.py` (source symbol: the
six-word title reducer at lines 31-34). -/
def title_sig (title : String) : String :=
  let words := splitWs (normChars title)
  let sig := (words.filter (fun w => 2 < w.length)).take 6
  String.intercalate " " (sig.map String.mk)

/-- The signature as the specification sentence describes it: the first six
words of the lower-cased, punctuation-stripped title, joined by single
spaces (no minimum word length).  Written from the spec's words, for
comparison with `title_sig`. -/
def title_sig_claimed (title : String) : String :=
  String.intercalate " " (((splitWs (normChars title)).take 6).map String.mk)

/-- Direct one-pass reading of the amended sentence: collect, left to right,
at most six words that are longer than two characters. -/
def collectSigWords : Nat → List (List Char) → List (List Char)
  | _, [] => []
  | 0, _ :: _ => []
  | Nat.succ n, w :: ws =>
    if 2 < w.length then w :: collectSigWords n ws else collectSigWords (Nat.succ n) ws

/-- The amended signature: first six words of length at least three. -/
def title_sig_amended (title : String) : String :=
  String.intercalate " " ((collectSigWords 6 (splitWs (normChars title))).map String.mk)

/-! ## Time model

A parsed `datetime` is a count of naive seconds plus an optional UTC offset
(`tzinfo`).  `fromisoformat` is passed explicitly wherever the source calls
it.  An instant "now" is an absolute UTC second count (`Int`). -/

structure DT where
  seconds : Int
  tz : Option Int
deriving DecidableEq

/-- Absolute UTC seconds of a datetime (naive fields minus the UTC offset). -/
def utcSeconds (d : DT) : Int := d.seconds - d.tz.getD 0

/-- `dt.replace(tzinfo=timezone.utc)` applied only when `dt.tzinfo is None`:
a naive timestamp is reinterpreted as UTC. -/
def toAware (d : DT) : DT :=
  match d.tz with
  | some _ => d
  | none => { d with tz := some 0 }

/-! ## Breaking-news state and throttle (`breaking.py`) -/

def MAX_ALERTS_PER_DAY : Int := 3
def COOLDOWN_MINUTES : Int := 60
def MAX_SEEN_IDS : Nat := 200

/-- The breaking-state JSON dict, with the field types the load/run paths
give it (`load_breaking_state` defaults, `_run_breaking_locked` coercions). -/
structure BState where
  last_check : Option String
  seen_ids : List String
  alerts_today : Int
  today_date : String
  last_alert_time : Option String
deriving DecidableEq

/-- `reset_daily_counter` (breaking.py lines 100-104); `todayIso` is
`now.date().isoformat()`. -/
def reset_daily_counter (s : BState) (todayIso : String) : BState :=
  if s.today_date != todayIso then { s with alerts_today := 0, today_date := todayIso } else s

/-- `can_alert` (breaking.py lines 107-119).  `parse` is
`datetime.fromisoformat`; `now` is an absolute UTC instant.  A Python-falsy
`last_alert_time` (`None` or the empty string) short-circuits to `True`. -/
def can_alert (parse : String → Option DT) (s : BState) (now : Int) : Bool :=
  if decide (MAX_ALERTS_PER_DAY ≤ s.alerts_today) then false
  else
    match s.last_alert_time with
    | none => true
    | some last =>
      if last == "" then true
      else
        match parse last with
        | none => true
        | some lastDt => decide (COOLDOWN_MINUTES * 60 ≤ now - utcSeconds (toAware lastDt))

/-! ## Cadence scheduler (`state.py`) -/

/-- The `_CADENCE_DAYS` lookup with the `.get(cadence, 1)` default
(state.py lines 35-41, 81). -/
def CADENCE_DAYS (cadence : String) : Int :=
  if cadence == "daily" then 0
  else if cadence == "twice_weekly" then 2
  else if cadence == "weekly" then 5
  else if cadence == "biweekly" then 10
  else if cadence == "monthly" then 25
  else 1

/-- `dict.get` on the fetch-state mapping. -/
def lookupState : List (String × String) → String → Option String
  | [], _ => none
  | (k, v) :: rest, key => if k == key then some v else lookupState rest key

/-- `should_fetch` (state.py lines 75-93). -/
def should_fetch (parse : String → Option DT) (state : List (String × String))
    (source_name cadence : String) (now : Int) : Bool :=
  let cadence_days := CADENCE_DAYS cadence
  match lookupState state source_name with
  | none => true
  | some raw =>
    if raw == "" then true
    else
      match parse raw with
      | none => true
      | some lastSeen => decide (cadence_days * 86400 ≤ now - utcSeconds (toAware lastSeen))

/-! ## Articles, sources and the RSS fetcher boundary (`fetcher.py`) -/

/-- An article dict as produced by the fetchers. -/
structure Article where
  title : String
  link : String
  date : String
  summary : String
deriving DecidableEq

/-- A `web_sources` entry as read by `_source_candidates`: `rss`/`url` are
`none` when the key is absent. -/
structure Source where
  name : String
  rss : Option String
  url : Option String
  tier : Int
deriving DecidableEq

/-- Python truthiness of `source.get(key)` for an optional string field. -/
def truthyStr : Option String → Bool
  | none => false
  | some s => !s.isEmpty

/-- Python `str.strip()` (whitespace from both ends). -/
def pyStrip (s : String) : String :=
  String.mk (((s.data.dropWhile isSpaceChar).reverse.dropWhile isSpaceChar).reverse)

/-- What `feedparser.parse` handed to the body of `fetch_rss`: either an
entry list, or any exception raised while parsing/iterating (`err`). -/
inductive FeedOutcome where
  | ok (entries : List Article)
  | err
deriving DecidableEq

/-- The entry loop of `fetch_rss` (fetcher.py lines 87-98): strip the title,
skip empty titles and entries dated `<= since_date`, append, stop once
`max_items` articles are collected.  Entry fields `date`/`summary` stand for
the results of `_parse_feed_date`/`_extract_summary` on the entry. -/
def fetchRssLoop (since_date : String) (max_items : Nat) :
    List Article → List Article → List Article
  | [], acc => acc
  | e :: rest, acc =>
    let title := pyStrip e.title
    if title.isEmpty then fetchRssLoop since_date max_items rest acc
    else if !e.date.isEmpty && decide (e.date ≤ since_date) then
      fetchRssLoop since_date max_items rest acc
    else
      let acc := acc ++ [{ e with title := title }]
      if decide (max_items ≤ acc.length) then acc
      else fetchRssLoop since_date max_items rest acc

/-- `fetch_rss` (fetcher.py lines 83-102).  The return type is
`Option (List Article)` because the callers test `articles is None`; the
`except Exception` arm returns the empty list (`return []`), not `None`. -/
def fetch_rss (outcome : FeedOutcome) (since_date : String) (max_items : Nat) :
    Option (List Article) :=
  match outcome with
  | FeedOutcome.ok entries =>
    some (fetchRssLoop since_date max_items (entries.take (2 * max_items)) [])
  | FeedOutcome.err => some []

/-! ## The breaking run (`breaking.py`, `_run_breaking_locked`, lines 203-276)

External collaborators are parameters: `fr` is `fetch_rss` already applied
to `since_date`/`max_items=10`, `fw` is `fetch_web` with `max_items=8`,
`digest` is `article_hash` (a sha256 prefix in the source), `parse` is
`datetime.fromisoformat`.  `Now` bundles the three projections of the run's
single `now` value that the body uses. -/

structure Now where
  seconds : Int
  dateIso : String
  iso : String
deriving DecidableEq

structure BMatch where
  title : String
  link : String
  source : String
deriving DecidableEq

/-- `_source_candidates` (breaking.py lines 132-142). -/
def sourceCandidates (sources : List Source) : List Source :=
  sources.filter (fun s => s.tier == 1 && (truthyStr s.rss || truthyStr s.url))

/-- The per-source fetch with web fallback (breaking.py lines 221-227). -/
def fetchedArticles (fr : String → Option (List Article))
    (fw : String → List Article) (src : Source) : List Article :=
  if truthyStr src.rss then
    match fr (src.rss.getD "") with
    | some articles => articles
    | none => if truthyStr src.url then fw (src.url.getD "") else []
  else fw (src.url.getD "")

/-- `digest in seen_set`, where `seen_set` mirrors `seen_list`. -/
def seenLookup (seen : List String) (d : String) : Bool :=
  seen.any (fun x => x == d)

/-- The per-article loop (breaking.py lines 229-241): skip empty titles,
skip already-seen digests, append fresh digests in arrival order, collect
breaking matches. -/
def scanArticles (digest : String → String → String → String) (sourceName : String) :
    List Article → List String → List BMatch → List String × List BMatch
  | [], seen, ms => (seen, ms)
  | a :: rest, seen, ms =>
    let title := pyStrip a.title
    let link := pyStrip a.link
    if title.isEmpty then scanArticles digest sourceName rest seen ms
    else
      let d := digest title link sourceName
      if seenLookup seen d then scanArticles digest sourceName rest seen ms
      else
        let seen := seen ++ [d]
        if is_breaking title then
          scanArticles digest sourceName rest seen (ms ++ [⟨title, link, sourceName⟩])
        else scanArticles digest sourceName rest seen ms

/-- The source loop (breaking.py lines 219-241). -/
def scanSources (fr : String → Option (List Article)) (fw : String → List Article)
    (digest : String → String → String → String) :
    List Source → List String → List BMatch → List String × List BMatch
  | [], seen, ms => (seen, ms)
  | src :: rest, seen, ms =>
    let p := scanArticles digest src.name (fetchedArticles fr fw src) seen ms
    scanSources fr fw digest rest p.1 p.2

/-- The capacity bound (breaking.py lines 242-243):
`seen_list = seen_list[-MAX_SEEN_IDS:]` once the list exceeds the cap. -/
def truncateSeen (l : List String) : List String :=
  if decide (MAX_SEEN_IDS < l.length) then l.drop (l.length - MAX_SEEN_IDS) else l

/-- A completed run: the state handed to `save_breaking_state`, the matches
for which `_send_alert` was invoked (printed in dry-run mode), and the
matches recorded as actually sent (`sent_matches`). -/
structure RunResult where
  state : BState
  dispatched : List BMatch
  sent : List BMatch
deriving DecidableEq

/-- The alert loop (breaking.py lines 254-270): throttled candidates are
skipped without consuming quota; a dispatch in non-dry-run mode increments
`alerts_today` and stamps `last_alert_time` before the next candidate is
considered. -/
def dispatchLoop (parse : String → Option DT) (now : Now) (dryRun : Bool) :
    List BMatch → BState → List BMatch → List BMatch → BState × List BMatch × List BMatch
  | [], st, dispatched, sent => (st, dispatched, sent)
  | m :: rest, st, dispatched, sent =>
    if !dryRun && !can_alert parse st now.seconds then
      dispatchLoop parse now dryRun rest st dispatched sent
    else
      let dispatched := dispatched ++ [m]
      if !dryRun then
        dispatchLoop parse now dryRun rest
          { st with alerts_today := st.alerts_today + 1, last_alert_time := some now.iso }
          dispatched (sent ++ [m])
      else dispatchLoop parse now dryRun rest st dispatched sent

/-- `_run_breaking_locked` (breaking.py lines 203-276) from the point the
state has been loaded; the returned state is exactly what
`save_breaking_state` persists on either exit path. -/
def run_breaking_locked (parse : String → Option DT) (fr : String → Option (List Article))
    (fw : String → List Article) (digest : String → String → String → String)
    (sources : List Source) (state0 : BState) (dryRun : Bool) (now : Now) : RunResult :=
  let st := reset_daily_counter state0 now.dateIso
  let p := scanSources fr fw digest (sourceCandidates sources) st.seen_ids []
  let seen := truncateSeen p.1
  let st := { st with seen_ids := seen, last_check := some now.iso }
  if p.2.isEmpty then ⟨st, [], []⟩
  else
    let q := dispatchLoop parse now dryRun p.2 st [] []
    ⟨q.1, q.2.1, q.2.2⟩

/-! ## JSON payloads of the state store (`state.py`)

`save_state` writes `json.dumps(dict(state), indent=2, sort_keys=True)`;
`load_state` reads it back with `json.loads` and keeps the string-to-string
entries.  The encoder below is `json.dumps` with `ensure_ascii=True` on a
flat object of strings; the decoder is `json.loads` restricted to the same
shape (strict mode: unescaped control characters are rejected, `\uXXXX`
escapes and surrogate pairs are decoded). -/

/-- Lower-case hex digit, as in Python's `'{0:04x}'.format`. -/
def toHexDigit (n : Nat) : Char :=
  if n < 10 then Char.ofNat (48 + n) else Char.ofNat (87 + n)

/-- The hex digit of `n` at the position whose weight is `w`. -/
def nibble (n w : Nat) : Char := toHexDigit (n / w % 16)

/-- A `\uXXXX` escape. -/
def uEsc (n : Nat) : List Char :=
  '\\' :: 'u' :: nibble n 4096 :: nibble n 256 :: nibble n 16 :: nibble n 1 :: []

/-- One character as `json.dumps` (ensure_ascii) emits it: backslash and
quote escaped, printable ASCII literal, the five short escapes, `\uXXXX`
otherwise, surrogate pairs above the BMP. -/
def encodeChar (c : Char) : List Char :=
  if c == '\\' then ['\\', '\\']
  else if c == '"' then ['\\', '"']
  else if 0x20 ≤ c.toNat ∧ c.toNat ≤ 0x7e then [c]
  else if c == '\x08' then ['\\', 'b']
  else if c == '\t' then ['\\', 't']
  else if c == '\n' then ['\\', 'n']
  else if c == '\x0c' then ['\\', 'f']
  else if c == '\r' then ['\\', 'r']
  else if c.toNat < 0x10000 then uEsc c.toNat
  else uEsc (0xd800 + (c.toNat - 0x10000) / 1024) ++ uEsc (0xdc00 + (c.toNat - 0x10000) % 1024)

/-- A JSON string literal for `s`. -/
def encodeStr (s : String) : List Char := '"' :: (s.data.map encodeChar).flatten ++ ['"']

/-- One `"key": "value"` line under `indent=2`. -/
def dumpEntry (kv : String × String) : List Char :=
  ' ' :: ' ' :: encodeStr kv.1 ++ ':' :: ' ' :: encodeStr kv.2

/-- The comma-and-newline separated member lines. -/
def dumpEntries : List (String × String) → List Char
  | [] => []
  | [kv] => dumpEntry kv
  | kv :: kv2 :: rest => dumpEntry kv ++ ',' :: '\n' :: dumpEntries (kv2 :: rest)

/-- Python string `<=`: lexicographic by code point. -/
def strLeData : List Char → List Char → Bool
  | [], _ => true
  | _ :: _, [] => false
  | a :: as, b :: bs =>
    if a.toNat < b.toNat then true
    else if b.toNat < a.toNat then false
    else strLeData as bs

def keyLe (a b : String) : Bool := strLeData a.data b.data

/-- Insertion step of sorting by key (Python `sort_keys=True`; the order is
unique when keys are distinct). -/
def insertByKey (kv : String × String) : List (String × String) → List (String × String)
  | [] => [kv]
  | kv2 :: rest => if keyLe kv.1 kv2.1 then kv :: kv2 :: rest else kv2 :: insertByKey kv rest

def sortByKey : List (String × String) → List (String × String)
  | [] => []
  | kv :: rest => insertByKey kv (sortByKey rest)

/-- `json.dumps(dict(state), indent=2, sort_keys=True)` on a flat
string-to-string dict. -/
def jsonDumps (entries : List (String × String)) : List Char :=
  match sortByKey entries with
  | [] => ['{', '}']
  | kv :: rest => '{' :: '\n' :: dumpEntries (kv :: rest) ++ ['\n', '}']

/-- The exact file content `save_state` commits (state.py line 62). -/
def save_state_payload (state : List (String × String)) : String :=
  String.mk (jsonDumps state)

/-! ### The decoder (`json.loads` on the same shape) -/

/-- JSON whitespace. -/
def jsonWs (c : Char) : Bool := c == ' ' || c == '\t' || c == '\n' || c == '\r'

def skipWs (s : List Char) : List Char := s.dropWhile jsonWs

def fromHexDigit (c : Char) : Option Nat :=
  let n := c.toNat
  if 48 ≤ n ∧ n ≤ 57 then some (n - 48)
  else if 97 ≤ n ∧ n ≤ 102 then some (n - 87)
  else if 65 ≤ n ∧ n ≤ 70 then some (n - 55)
  else none

def parseHex4 : List Char → Option (Nat × List Char)
  | a :: b :: c :: d :: rest =>
    match fromHexDigit a, fromHexDigit b, fromHexDigit c, fromHexDigit d with
    | some x, some y, some z, some w => some (((x * 16 + y) * 16 + z) * 16 + w, rest)
    | _, _, _, _ => none
  | _ => none

/-- The JSON short-escape table (CPython's `BACKSLASH` dict in the json
scanner). -/
def escTable : List (Char × Char) :=
  [('"', '"'), ('\\', '\\'), ('/', '/'), ('b', '\x08'), ('f', '\x0c'),
   ('n', '\n'), ('r', '\x0d'), ('t', '\t')]

/-- Look a short escape up in the table. -/
def escMap (c : Char) : Option Char :=
  (escTable.find? (fun pr => pr.1 == c)).map (fun pr => pr.2)

/-- String-literal body: characters up to the closing quote, with escapes
decoded and surrogate pairs recombined.  Lone surrogate escapes are
rejected (a scalar-value string model cannot hold them; `save_state`
payloads of valid states never contain them).  The fuel argument only
bounds recursion depth; one character is consumed per step, so any fuel
larger than the input length is enough. -/
def parseStrBody : Nat → List Char → Option (List Char × List Char)
  | 0, _ => none
  | _ + 1, [] => none
  | fuel + 1, c :: rest =>
    if c == '"' then some ([], rest)
    else if c == '\\' then
      match rest with
      | [] => none
      | e :: rest2 =>
        if e == 'u' then
          match parseHex4 rest2 with
          | none => none
          | some (n, rest3) =>
            if 0xd800 ≤ n ∧ n < 0xdc00 then
              match rest3 with
              | '\\' :: 'u' :: rest4 =>
                match parseHex4 rest4 with
                | some (m, rest5) =>
                  if 0xdc00 ≤ m ∧ m < 0xe000 then
                    match parseStrBody fuel rest5 with
                    | some (cs, rem) =>
                      some (Char.ofNat (0x10000 + (n - 0xd800) * 1024 + (m - 0xdc00)) :: cs, rem)
                    | none => none
                  else none
                | none => none
              | _ => none
            else if 0xdc00 ≤ n ∧ n < 0xe000 then none
            else
              match parseStrBody fuel rest3 with
              | some (cs, rem) => some (Char.ofNat n :: cs, rem)
              | none => none
        else
          match escMap e with
          | some ch =>
            match parseStrBody fuel rest2 with
            | some (cs, rem) => some (ch :: cs, rem)
            | none => none
          | none => none
    else if c.toNat < 0x20 then none
    else
      match parseStrBody fuel rest with
      | some (cs, rem) => some (c :: cs, rem)
      | none => none

/-- A JSON string literal (expects the opening quote). -/
def parseJString (s : List Char) : Option (String × List Char) :=
  match s with
  | '"' :: rest =>
    match parseStrBody (rest.length + 1) rest with
    | some (cs, rem) => some (String.mk cs, rem)
    | none => none
  | _ => none

/-- Members of a flat object of strings: `"k": "v"` separated by commas,
closed by `}` followed only by whitespace. -/
def parseMembers : Nat → List (String × String) → List Char → Option (List (String × String))
  | 0, _, _ => none
  | fuel + 1, acc, s =>
    match parseJString s with
    | none => none
    | some (k, rest) =>
      match skipWs rest with
      | ':' :: rest2 =>
        match parseJString (skipWs rest2) with
        | none => none
        | some (v, rest3) =>
          match skipWs rest3 with
          | ',' :: rest4 => parseMembers fuel (acc ++ [(k, v)]) (skipWs rest4)
          | '}' :: rest4 => if (skipWs rest4).isEmpty then some (acc ++ [(k, v)]) else none
          | _ => none
      | _ => none

/-- `json.loads` on a flat object of strings. -/
def jsonLoadsObj (s : List Char) : Option (List (String × String)) :=
  match skipWs s with
  | '{' :: rest =>
    match skipWs rest with
    | '}' :: tail => if (skipWs tail).isEmpty then some [] else none
    | rest2 => parseMembers (rest2.length + 1) [] rest2
  | _ => none

/-- `load_state` (state.py lines 44-57) on a file-content view: `none` is a
missing file; unparseable content falls back to the empty default; parsed
entries are the string-to-string members. -/
def load_state (file : Option String) : List (String × String) :=
  match file with
  | none => []
  | some content =>
    match jsonLoadsObj content.data with
    | none => []
    | some entries => entries

/-! ## The atomic-write discipline (`state.py` `save_state` lines 60-72,
`breaking.py` `save_breaking_state` lines 85-97 — identical bodies)

`Fs` is the part of the file system the write touches: the target path and
the sibling temporary file.  `saveOps` is the operation sequence of the
source; `os.replace` is the single atomic primitive (the OS rename
contract).  A crash after `k` operations leaves the state
`runFs fs ((saveOps p).take k)`. -/

structure Fs where
  target : Option String
  temp : Option String
deriving DecidableEq

inductive FsOp where
  /-- `tempfile.mkstemp` -/
  | mkstemp
  /-- `tmp_file.write(payload)` -/
  | writeTemp (payload : String)
  /-- `tmp_file.flush()` -/
  | flushTemp
  /-- `os.fsync(tmp_file.fileno())` -/
  | fsyncTemp
  /-- `os.replace(tmp_name, path)` -/
  | replaceTempOverTarget
  /-- the `finally:` cleanup `os.unlink(tmp_name)` when the temp still exists -/
  | unlinkTempIfExists
deriving DecidableEq

def stepFs (fs : Fs) : FsOp → Fs
  | FsOp.mkstemp => { fs with temp := some "" }
  | FsOp.writeTemp payload => { fs with temp := some payload }
  | FsOp.flushTemp => fs
  | FsOp.fsyncTemp => fs
  | FsOp.replaceTempOverTarget =>
    match fs.temp with
    | some payload => { target := some payload, temp := none }
    | none => fs
  | FsOp.unlinkTempIfExists => { fs with temp := none }

/-- The operation sequence of `save_state`/`save_breaking_state`. -/
def saveOps (payload : String) : List FsOp :=
  [FsOp.mkstemp, FsOp.writeTemp payload, FsOp.flushTemp, FsOp.fsyncTemp,
   FsOp.replaceTempOverTarget, FsOp.unlinkTempIfExists]

def runFs (fs : Fs) (ops : List FsOp) : Fs := ops.foldl stepFs fs

/-! ## Helper lemmas -/

theorem is_breaking_empty : is_breaking "" = false := by decide

theorem pyStrip_empty_of_isEmpty {s : String} (h : (pyStrip s).isEmpty = true) :
    pyStrip s = "" := (String.isEmpty_iff (pyStrip s)).mp h

theorem collectSigWords_eq_take_filter (l : List (List Char)) :
    ∀ n, collectSigWords n l = ((l.filter (fun w => 2 < w.length)).take n) := by
  induction l with
  | nil => intro n; simp [collectSigWords]
  | cons w ws ih =>
    intro n
    by_cases hw : 2 < w.length
    · cases n with
      | zero => simp [collectSigWords]
      | succ n => simp [collectSigWords, hw, ih]
    · cases n with
      | zero => simp [collectSigWords, List.filter_cons, hw]
      | succ n => simp [collectSigWords, List.filter_cons, hw, ih]

theorem dispatchLoop_dry (parse : String → Option DT) (now : Now) :
    ∀ (ms : List BMatch) (st : BState) (disp sent : List BMatch),
      dispatchLoop parse now true ms st disp sent = (st, disp ++ ms, sent) := by
  intro ms
  induction ms with
  | nil => intro st disp sent; simp [dispatchLoop]
  | cons m rest ih => intro st disp sent; simp [dispatchLoop, ih]

theorem run_dry_eq (parse : String → Option DT) (fr : String → Option (List Article))
    (fw : String → List Article) (digest : String → String → String → String)
    (sources : List Source) (s0 : BState) (now : Now) :
    run_breaking_locked parse fr fw digest sources s0 true now =
      ⟨{ reset_daily_counter s0 now.dateIso with
           seen_ids := truncateSeen
             (scanSources fr fw digest (sourceCandidates sources)
               (reset_daily_counter s0 now.dateIso).seen_ids []).1,
           last_check := some now.iso },
        (scanSources fr fw digest (sourceCandidates sources)
          (reset_daily_counter s0 now.dateIso).seen_ids []).2, []⟩ := by
  unfold run_breaking_locked
  rcases hp : (scanSources fr fw digest (sourceCandidates sources)
      (reset_daily_counter s0 now.dateIso).seen_ids []).2 with _ | ⟨m, rest⟩
  · simp [hp]
  · simp [hp, dispatchLoop_dry]

theorem reset_preserves_last (s : BState) (d : String) :
    (reset_daily_counter s d).last_alert_time = s.last_alert_time := by
  unfold reset_daily_counter
  split <;> rfl

theorem reset_preserves_seen (s : BState) (d : String) :
    (reset_daily_counter s d).seen_ids = s.seen_ids := by
  unfold reset_daily_counter
  split <;> rfl

/-! ## Claim theorems -/

/-- C4: `is_breaking(title)` is true iff the title matches at least one
entity pattern and at least one action pattern and no negative-signal
pattern (the negative match vetoes an otherwise-qualifying title); and the
three concrete examples behave as stated. -/
theorem is_breaking_characterization :
    (∀ title, is_breaking title =
      (entitiesSearch title && actionsSearch title && !negativeSearch title)) ∧
    is_breaking "OpenAI released GPT-5 with new reasoning features" = true ∧
    is_breaking "Anthropic partners with startup on a webinar series" = false ∧
    is_breaking "Random product update with no entities mentioned" = false := by
  refine ⟨fun title => ?_, by decide, by decide, by decide⟩
  cases h1 : entitiesSearch title <;> cases h2 : actionsSearch title <;>
    cases h3 : negativeSearch title <;> simp [is_breaking, h1, h2, h3]

/-- C6 counterexample: the code's title signature is not "the first six
alphanumeric words" of the title — words of one or two characters are
skipped.  At a concrete title the two disagree. -/
theorem title_sig_claim_counterexample :
    title_sig "AI is on the rise again now" = "the rise again now" ∧
    title_sig_claimed "AI is on the rise again now" = "ai is on the rise again" ∧
    ("the rise again now" == "ai is on the rise again") = false := by
  refine ⟨by decide, by decide, by decide⟩

/-- C6 amended: the normalized title signature equals the first six words of
length at least three characters of the title, lower-cased with punctuation
stripped, joined by single spaces. -/
theorem title_sig_amended_eq :
    (∀ title, title_sig title = title_sig_amended title) ∧
    title_sig "AI is on the rise again now" = "the rise again now" := by
  refine ⟨fun title => ?_, by decide⟩
  unfold title_sig title_sig_amended
  rw [collectSigWords_eq_take_filter]

/-- C7 (code divergence): on a failing feed, `fetch_rss` returns the empty
list, not `None`; it never returns `None` at all, so the
`articles is None` web-fallback branch of the orchestrators is never taken
(the per-source result ignores `fetch_web` entirely). -/
theorem fetch_rss_error_no_fallback :
    (∀ since maxItems, fetch_rss FeedOutcome.err since maxItems = some []) ∧
    (∀ outcome since maxItems, (fetch_rss outcome since maxItems).isSome = true) ∧
    (∀ fw : String → List Article,
      fetchedArticles (fun _ => fetch_rss FeedOutcome.err "2026-02-23" 10) fw
        ⟨"Feed", some "https://feed", some "https://page", 1⟩ = []) := by
  refine ⟨fun since maxItems => rfl, fun outcome since maxItems => ?_, fun fw => ?_⟩
  · cases outcome <;> rfl
  · rfl

/-- C10: in dry-run mode the breaking run dispatches (prints) every
breaking match without consulting the throttle — the result does not depend
on the timestamp parser at all — and the persisted `alerts_today`,
`today_date` and `last_alert_time` are exactly those of the loaded state
after day-rollover, while `seen_ids` and `last_check` are still updated. -/
theorem dry_run_frame (parse parse2 : String → Option DT)
    (fr : String → Option (List Article)) (fw : String → List Article)
    (digest : String → String → String → String) (sources : List Source)
    (s0 : BState) (now : Now) :
    (run_breaking_locked parse fr fw digest sources s0 true now).state.alerts_today =
      (reset_daily_counter s0 now.dateIso).alerts_today ∧
    (run_breaking_locked parse fr fw digest sources s0 true now).state.today_date =
      (reset_daily_counter s0 now.dateIso).today_date ∧
    (run_breaking_locked parse fr fw digest sources s0 true now).state.last_alert_time =
      s0.last_alert_time ∧
    (run_breaking_locked parse fr fw digest sources s0 true now).state.last_check =
      some now.iso ∧
    (run_breaking_locked parse fr fw digest sources s0 true now).state.seen_ids =
      truncateSeen (scanSources fr fw digest (sourceCandidates sources) s0.seen_ids []).1 ∧
    (run_breaking_locked parse fr fw digest sources s0 true now).dispatched =
      (scanSources fr fw digest (sourceCandidates sources) s0.seen_ids []).2 ∧
    (run_breaking_locked parse fr fw digest sources s0 true now).sent = [] ∧
    run_breaking_locked parse fr fw digest sources s0 true now =
      run_breaking_locked parse2 fr fw digest sources s0 true now := by
  rw [run_dry_eq parse, run_dry_eq parse2, reset_preserves_seen]
  exact ⟨rfl, rfl, reset_preserves_last s0 now.dateIso, rfl, rfl, rfl, rfl, rfl⟩

/-- C1: `can_alert` is false whenever `alerts_today` has reached
`MAX_ALERTS_PER_DAY` regardless of elapsed time; false whenever a
`last_alert_time` exists, parses, and the elapsed time is strictly below
the 60-minute cooldown, regardless of quota remaining; true otherwise; and
an unparseable `last_alert_time` behaves exactly like an absent one. -/
theorem can_alert_quota_cooldown (parse : String → Option DT) (s : BState) (now : Int) :
    (MAX_ALERTS_PER_DAY ≤ s.alerts_today → can_alert parse s now = false) ∧
    (∀ last lastDt, s.last_alert_time = some last → last ≠ "" →
      parse last = some lastDt →
      now - utcSeconds (toAware lastDt) < COOLDOWN_MINUTES * 60 →
      can_alert parse s now = false) ∧
    (s.alerts_today < MAX_ALERTS_PER_DAY → s.last_alert_time = none →
      can_alert parse s now = true) ∧
    (∀ last, s.alerts_today < MAX_ALERTS_PER_DAY → s.last_alert_time = some last →
      (last = "" ∨ parse last = none ∨
        ∃ lastDt, parse last = some lastDt ∧
          COOLDOWN_MINUTES * 60 ≤ now - utcSeconds (toAware lastDt)) →
      can_alert parse s now = true) ∧
    (∀ last, s.last_alert_time = some last → last ≠ "" → parse last = none →
      can_alert parse s now = can_alert parse { s with last_alert_time := none } now) := by
  constructor
  · intro hq; simp [can_alert, hq]
  constructor
  · intro last lastDt hl hne hp hlt
    by_cases hq : MAX_ALERTS_PER_DAY ≤ s.alerts_today
    · simp [can_alert, hq]
    · simp only [can_alert, hl]
      rw [if_neg (show ¬(decide (MAX_ALERTS_PER_DAY ≤ s.alerts_today) = true) by simp [hq])]
      rw [if_neg (show ¬((last == "") = true) by simp [hne]), hp]
      simp [not_le.mpr hlt]
  constructor
  · intro hq hl; simp [can_alert, not_le.mpr hq, hl]
  constructor
  · intro last hq hl hcase
    simp only [can_alert, hl]
    rw [if_neg
      (show ¬(decide (MAX_ALERTS_PER_DAY ≤ s.alerts_today) = true) by simp [not_le.mpr hq])]
    rcases hcase with rfl | hp | ⟨lastDt, hp, hge⟩
    · simp
    · split
      · rfl
      · rw [hp]
    · split
      · rfl
      · rw [hp]; simpa using hge
  · intro last hl hne hp
    simp [can_alert, hl, hp, hne]

/-- C1 witness: the theorem applied at concrete states. -/
theorem can_alert_quota_cooldown_witness :
    can_alert (fun _ => some ⟨0, none⟩) ⟨none, [], 3, "2026-02-24", none⟩ 999999 = false ∧
    can_alert (fun _ => some ⟨0, none⟩) ⟨none, [], 0, "2026-02-24", some "t"⟩ 3599 = false ∧
    can_alert (fun _ => some ⟨0, none⟩) ⟨none, [], 0, "2026-02-24", none⟩ 0 = true ∧
    can_alert (fun _ => some ⟨0, none⟩) ⟨none, [], 0, "2026-02-24", some "t"⟩ 3600 = true ∧
    can_alert (fun _ => none) ⟨none, [], 0, "2026-02-24", some "garbage"⟩ 0 =
      can_alert (fun _ => none) ⟨none, [], 0, "2026-02-24", none⟩ 0 := by
  refine ⟨?_, ?_, ?_, ?_, ?_⟩
  · exact (can_alert_quota_cooldown (fun _ => some ⟨0, none⟩)
      ⟨none, [], 3, "2026-02-24", none⟩ 999999).1 (by decide)
  · exact (can_alert_quota_cooldown (fun _ => some ⟨0, none⟩)
      ⟨none, [], 0, "2026-02-24", some "t"⟩ 3599).2.1 "t" ⟨0, none⟩ rfl (by decide) rfl
      (by decide)
  · exact (can_alert_quota_cooldown (fun _ => some ⟨0, none⟩)
      ⟨none, [], 0, "2026-02-24", none⟩ 0).2.2.1 (by decide) rfl
  · exact (can_alert_quota_cooldown (fun _ => some ⟨0, none⟩)
      ⟨none, [], 0, "2026-02-24", some "t"⟩ 3600).2.2.2.1 "t" (by decide) rfl
      (Or.inr (Or.inr ⟨⟨0, none⟩, rfl, by decide⟩))
  · exact (can_alert_quota_cooldown (fun _ => none)
      ⟨none, [], 0, "2026-02-24", some "garbage"⟩ 0).2.2.2.2 "garbage" rfl (by decide) rfl

/-- C3: `should_fetch` is true when the source has no recorded (or an
empty) last-fetch value, true when the recorded value fails to parse, and
otherwise true iff the elapsed time reaches the cadence interval in days;
the cadence lookup is {daily 0, twice_weekly 2, weekly 5, biweekly 10,
monthly 25} with unknown classes defaulting to 1 day, and a timestamp
lacking a timezone is reinterpreted as UTC. -/
theorem should_fetch_cadence (parse : String → Option DT)
    (state : List (String × String)) (name cadence : String) (now : Int) :
    (lookupState state name = none → should_fetch parse state name cadence now = true) ∧
    (lookupState state name = some "" → should_fetch parse state name cadence now = true) ∧
    (∀ raw, lookupState state name = some raw → raw ≠ "" → parse raw = none →
      should_fetch parse state name cadence now = true) ∧
    (∀ raw lastSeen, lookupState state name = some raw → raw ≠ "" →
      parse raw = some lastSeen →
      should_fetch parse state name cadence now =
        decide (CADENCE_DAYS cadence * 86400 ≤ now - utcSeconds (toAware lastSeen))) ∧
    (CADENCE_DAYS "daily" = 0 ∧ CADENCE_DAYS "twice_weekly" = 2 ∧
      CADENCE_DAYS "weekly" = 5 ∧ CADENCE_DAYS "biweekly" = 10 ∧
      CADENCE_DAYS "monthly" = 25) ∧
    (cadence ∉ ["daily", "twice_weekly", "weekly", "biweekly", "monthly"] →
      CADENCE_DAYS cadence = 1) ∧
    (∀ t, toAware ⟨t, none⟩ = ⟨t, some 0⟩ ∧ utcSeconds (toAware ⟨t, none⟩) = t) := by
  refine ⟨fun h => ?_, fun h => ?_, fun raw h hne hp => ?_,
    fun raw lastSeen h hne hp => ?_, by decide, fun h => ?_, fun t => ⟨rfl, ?_⟩⟩
  · simp [should_fetch, h]
  · simp [should_fetch, h]
  · simp only [should_fetch, h]
    rw [if_neg (by simpa using hne), hp]
  · simp only [should_fetch, h]
    rw [if_neg (by simpa using hne), hp]
  · simp only [List.mem_cons, List.mem_singleton, not_or] at h
    obtain ⟨h1, h2, h3, h4, h5, -⟩ := h
    simp only [CADENCE_DAYS]
    rw [if_neg (by simpa using h1), if_neg (by simpa using h2), if_neg (by simpa using h3),
      if_neg (by simpa using h4), if_neg (by simpa using h5)]
  · simp [toAware, utcSeconds]

/-- C3 witness: the theorem applied at concrete states. -/
theorem should_fetch_cadence_witness :
    should_fetch (fun _ => some ⟨0, none⟩) [] "a" "weekly" 0 = true ∧
    should_fetch (fun _ => some ⟨0, none⟩) [("a", "")] "a" "weekly" 0 = true ∧
    should_fetch (fun _ => none) [("a", "garbage")] "a" "weekly" 0 = true ∧
    should_fetch (fun _ => some ⟨0, none⟩) [("a", "t")] "a" "weekly" (5 * 86400) =
      decide (CADENCE_DAYS "weekly" * 86400 ≤ (5 * 86400 : Int) - utcSeconds (toAware ⟨0, none⟩)) ∧
    CADENCE_DAYS "hourly" = 1 := by
  refine ⟨?_, ?_, ?_, ?_, ?_⟩
  · exact (should_fetch_cadence (fun _ => some ⟨0, none⟩) [] "a" "weekly" 0).1 rfl
  · exact (should_fetch_cadence (fun _ => some ⟨0, none⟩) [("a", "")] "a" "weekly" 0).2.1
      (by decide)
  · exact (should_fetch_cadence (fun _ => none) [("a", "garbage")] "a" "weekly" 0).2.2.1
      "garbage" (by decide) (by decide) rfl
  · exact (should_fetch_cadence (fun _ => some ⟨0, none⟩) [("a", "t")] "a" "weekly"
      (5 * 86400)).2.2.2.1 "t" ⟨0, none⟩ (by decide) (by decide) rfl
  · exact (should_fetch_cadence (fun _ => some ⟨0, none⟩) [] "a" "hourly" 0).2.2.2.2.2.1
      (by decide)

theorem seenLookup_eq_mem (l : List String) (d : String) :
    seenLookup l d = decide (d ∈ l) := by
  induction l with
  | nil => simp [seenLookup]
  | cons x xs ih =>
    show (x == d || seenLookup xs d) = decide (d ∈ x :: xs)
    rw [ih]
    by_cases hxd : d = x
    · subst hxd; simp
    · have h1 : (x == d) = false := beq_eq_false_iff_ne.mpr (Ne.symm hxd)
      rw [h1]
      simp [List.mem_cons, hxd]

theorem seenLookup_append (l t : List String) (d : String) :
    seenLookup (l ++ t) d = (seenLookup l d || seenLookup t d) := by
  simp [seenLookup, List.any_append]

theorem seenLookup_truncate_of_suffix (l t : List String) (d : String)
    (ht : t.length ≤ MAX_SEEN_IDS) (hd : seenLookup t d = true) :
    seenLookup (truncateSeen (l ++ t)) d = true := by
  unfold truncateSeen
  split
  · next h =>
    rw [List.drop_append_of_le_length (by simp at h ⊢; omega), seenLookup_append, hd]
    simp
  · rw [seenLookup_append, hd]; simp

/-- C2: the seen-digest store: lookup is order-insensitive membership; the
persisted list never exceeds the capacity after truncation; inserting one
fresh digest into a full list evicts exactly the earliest-inserted entry;
and the run's scan appends a fresh digest at the end (skipping digests
already present and empty titles). -/
theorem seen_digest_store :
    (∀ (l l' : List String) (d : String), l.Perm l' → seenLookup l d = seenLookup l' d) ∧
    (∀ l : List String, (truncateSeen l).length ≤ MAX_SEEN_IDS) ∧
    (∀ (l : List String) (d : String), l.length = MAX_SEEN_IDS → seenLookup l d = false →
      truncateSeen (l ++ [d]) = l.tail ++ [d]) ∧
    (∀ (digest : String → String → String → String) (nm : String) (a : Article)
      (seen : List String) (ms : List BMatch),
      (scanArticles digest nm [a] seen ms).1 =
        if (pyStrip a.title).isEmpty then seen
        else if seenLookup seen (digest (pyStrip a.title) (pyStrip a.link) nm) then seen
        else seen ++ [digest (pyStrip a.title) (pyStrip a.link) nm]) := by
  refine ⟨fun l l' d h => ?_, fun l => ?_, fun l d h _ => ?_, fun digest nm a seen ms => ?_⟩
  · rw [seenLookup_eq_mem, seenLookup_eq_mem]
    simp [h.mem_iff]
  · unfold truncateSeen
    split
    · simp; omega
    · next h => simp at h; omega
  · match l, h with
    | x :: xs, h =>
      have hx : xs.length = 199 := by simpa [MAX_SEEN_IDS] using h
      simp [truncateSeen, hx, MAX_SEEN_IDS]
  · simp only [scanArticles]
    split_ifs with h1 h2 h3 <;> simp_all [scanArticles]

set_option maxRecDepth 4000 in
/-- C2 witness: the theorem applied at concrete stores. -/
theorem seen_digest_store_witness :
    seenLookup ["a", "b"] "a" = seenLookup ["b", "a"] "a" ∧
    (truncateSeen (List.replicate 300 "x")).length ≤ MAX_SEEN_IDS ∧
    truncateSeen (List.replicate 200 "a" ++ ["b"]) = (List.replicate 200 "a").tail ++ ["b"] ∧
    (scanArticles (fun t _ _ => t) "Src" [⟨"fresh title", "", "", ""⟩] ["other"] []).1 =
      if ("fresh title" : String).isEmpty then ["other"]
      else if seenLookup ["other"] "fresh title" then ["other"]
      else ["other"] ++ ["fresh title"] := by
  refine ⟨seen_digest_store.1 _ _ _ (List.Perm.swap "b" "a" []), seen_digest_store.2.1 _,
    seen_digest_store.2.2.1 _ _ (by decide) (by decide), ?_⟩
  have h := seen_digest_store.2.2.2 (fun t _ _ => t) "Src" ⟨"fresh title", "", "", ""⟩
    ["other"] []
  simpa using h

theorem reset_alerts_zero {s : BState} (d : String) (h : s.alerts_today = 0) :
    (reset_daily_counter s d).alerts_today = 0 := by
  unfold reset_daily_counter
  split <;> simp [h]

/-- C8: a run over one tier-1 source returning two fresh articles, one
breaking and one not, starting with `alerts_today = 0` and no prior alert,
dispatches exactly the breaking match, ends with `alerts_today = 1`, and
records both digests as seen (the non-matching one recorded, never
alerted). -/
theorem breaking_run_end_to_end
    (parse : String → Option DT) (fr : String → Option (List Article))
    (fw : String → List Article) (digest : String → String → String → String)
    (nm rssUrl : String) (a1 a2 : Article) (s0 : BState) (now : Now)
    (hrss : rssUrl.isEmpty = false)
    (hfr : fr rssUrl = some [a1, a2])
    (hb1 : is_breaking (pyStrip a1.title) = true)
    (hb2 : is_breaking (pyStrip a2.title) = false)
    (ht2 : (pyStrip a2.title).isEmpty = false)
    (hdd : (digest (pyStrip a1.title) (pyStrip a1.link) nm ==
            digest (pyStrip a2.title) (pyStrip a2.link) nm) = false)
    (hf1 : seenLookup s0.seen_ids (digest (pyStrip a1.title) (pyStrip a1.link) nm) = false)
    (hf2 : seenLookup s0.seen_ids (digest (pyStrip a2.title) (pyStrip a2.link) nm) = false)
    (halerts : s0.alerts_today = 0)
    (hlast : s0.last_alert_time = none) :
    (run_breaking_locked parse fr fw digest [⟨nm, some rssUrl, none, 1⟩] s0 false now).dispatched =
      [⟨pyStrip a1.title, pyStrip a1.link, nm⟩] ∧
    (run_breaking_locked parse fr fw digest [⟨nm, some rssUrl, none, 1⟩] s0 false now).sent =
      [⟨pyStrip a1.title, pyStrip a1.link, nm⟩] ∧
    (run_breaking_locked parse fr fw digest
      [⟨nm, some rssUrl, none, 1⟩] s0 false now).state.alerts_today = 1 ∧
    seenLookup (run_breaking_locked parse fr fw digest
        [⟨nm, some rssUrl, none, 1⟩] s0 false now).state.seen_ids
      (digest (pyStrip a1.title) (pyStrip a1.link) nm) = true ∧
    seenLookup (run_breaking_locked parse fr fw digest
        [⟨nm, some rssUrl, none, 1⟩] s0 false now).state.seen_ids
      (digest (pyStrip a2.title) (pyStrip a2.link) nm) = true := by
  have ht1 : (pyStrip a1.title).isEmpty = false := by
    cases h : (pyStrip a1.title).isEmpty with
    | false => rfl
    | true =>
      rw [pyStrip_empty_of_isEmpty h, is_breaking_empty] at hb1
      exact absurd hb1 (by simp)
  have hfetch : fetchedArticles fr fw ⟨nm, some rssUrl, none, 1⟩ = [a1, a2] := by
    simp [fetchedArticles, truthyStr, hrss, hfr]
  have h2 : seenLookup
      (s0.seen_ids ++ [digest (pyStrip a1.title) (pyStrip a1.link) nm])
      (digest (pyStrip a2.title) (pyStrip a2.link) nm) = false := by
    rw [seenLookup_append, hf2]
    simp [seenLookup, hdd]
  have hscan : scanSources fr fw digest [⟨nm, some rssUrl, none, 1⟩] s0.seen_ids [] =
      (s0.seen_ids ++ [digest (pyStrip a1.title) (pyStrip a1.link) nm] ++
        [digest (pyStrip a2.title) (pyStrip a2.link) nm],
       [⟨pyStrip a1.title, pyStrip a1.link, nm⟩]) := by
    simp [scanSources, hfetch, scanArticles, ht1, ht2, hb1, hb2, hf1, h2]
  have hcand : sourceCandidates [⟨nm, some rssUrl, none, 1⟩] = [⟨nm, some rssUrl, none, 1⟩] := by
    simp [sourceCandidates, truthyStr, hrss]
  have hseen0 : (reset_daily_counter s0 now.dateIso).seen_ids = s0.seen_ids :=
    reset_preserves_seen s0 now.dateIso
  have halerts1 : (reset_daily_counter s0 now.dateIso).alerts_today = 0 :=
    reset_alerts_zero now.dateIso halerts
  have hlast1 : (reset_daily_counter s0 now.dateIso).last_alert_time = none := by
    rw [reset_preserves_last, hlast]
  have hca : ∀ seen lc,
      can_alert parse
        { reset_daily_counter s0 now.dateIso with seen_ids := seen, last_check := lc }
        now.seconds = true := by
    intro seen lc
    simp [can_alert, halerts1, hlast1, MAX_ALERTS_PER_DAY]
  have hrun : run_breaking_locked parse fr fw digest [⟨nm, some rssUrl, none, 1⟩] s0 false now =
      ⟨{ reset_daily_counter s0 now.dateIso with
           seen_ids := truncateSeen
             (s0.seen_ids ++ [digest (pyStrip a1.title) (pyStrip a1.link) nm] ++
               [digest (pyStrip a2.title) (pyStrip a2.link) nm]),
           last_check := some now.iso,
           alerts_today := (reset_daily_counter s0 now.dateIso).alerts_today + 1,
           last_alert_time := some now.iso },
        [⟨pyStrip a1.title, pyStrip a1.link, nm⟩],
        [⟨pyStrip a1.title, pyStrip a1.link, nm⟩]⟩ := by
    simp [run_breaking_locked, hcand, hseen0, hscan, dispatchLoop, hca]
  rw [hrun]
  refine ⟨rfl, rfl, by simp [halerts1], ?_, ?_⟩
  · rw [List.append_assoc]
    refine seenLookup_truncate_of_suffix _ _ _ (by simp [MAX_SEEN_IDS]) ?_
    simp [seenLookup]
  · rw [List.append_assoc]
    refine seenLookup_truncate_of_suffix _ _ _ (by simp [MAX_SEEN_IDS]) ?_
    simp [seenLookup]

/-- C8 witness: the theorem applied to a concrete source, feed and state. -/
theorem breaking_run_end_to_end_witness :
    (run_breaking_locked (fun _ => none)
        (fun _ => some [⟨"OpenAI released GPT-5 with new reasoning features", "https://x/1", "", ""⟩,
          ⟨"Random product update with no entities mentioned", "", "", ""⟩])
        (fun _ => []) (fun t _ _ => t) [⟨"Src", some "https://feed", none, 1⟩]
        ⟨none, [], 0, "2026-02-24", none⟩ false
        ⟨0, "2026-02-24", "2026-02-24T00:00:00+00:00"⟩).dispatched =
      [⟨pyStrip "OpenAI released GPT-5 with new reasoning features", pyStrip "https://x/1", "Src"⟩] ∧
    (run_breaking_locked (fun _ => none)
        (fun _ => some [⟨"OpenAI released GPT-5 with new reasoning features", "https://x/1", "", ""⟩,
          ⟨"Random product update with no entities mentioned", "", "", ""⟩])
        (fun _ => []) (fun t _ _ => t) [⟨"Src", some "https://feed", none, 1⟩]
        ⟨none, [], 0, "2026-02-24", none⟩ false
        ⟨0, "2026-02-24", "2026-02-24T00:00:00+00:00"⟩).state.alerts_today = 1 := by
  have h := breaking_run_end_to_end (fun _ => none)
    (fun _ => some [⟨"OpenAI released GPT-5 with new reasoning features", "https://x/1", "", ""⟩,
      ⟨"Random product update with no entities mentioned", "", "", ""⟩])
    (fun _ => []) (fun t _ _ => t) "Src" "https://feed"
    ⟨"OpenAI released GPT-5 with new reasoning features", "https://x/1", "", ""⟩
    ⟨"Random product update with no entities mentioned", "", "", ""⟩
    ⟨none, [], 0, "2026-02-24", none⟩ ⟨0, "2026-02-24", "2026-02-24T00:00:00+00:00"⟩
    (by decide) rfl (by decide) (by decide) (by decide) (by decide) (by decide) (by decide)
    rfl rfl
  exact ⟨h.1, h.2.2.1⟩

/-! ### Round-trip of the JSON string encoding -/

theorem fromHex_toHex : ∀ k < 16, fromHexDigit (toHexDigit k) = some k := by decide

theorem charValidRange (c : Char) :
    c.toNat < 0xd800 ∨ (0xdfff < c.toNat ∧ c.toNat < 0x110000) := by
  have h := c.valid
  unfold UInt32.isValidChar Nat.isValidChar at h
  exact h

theorem parseHex4_toHex (n : Nat) (hn : n < 65536) (rest : List Char) :
    parseHex4 (nibble n 4096 :: nibble n 256 :: nibble n 16 :: nibble n 1 :: rest) =
      some (n, rest) := by
  have h1 := fromHex_toHex (n / 4096 % 16) (Nat.mod_lt _ (by norm_num))
  have h2 := fromHex_toHex (n / 256 % 16) (Nat.mod_lt _ (by norm_num))
  have h3 := fromHex_toHex (n / 16 % 16) (Nat.mod_lt _ (by norm_num))
  have h4 := fromHex_toHex (n % 16) (Nat.mod_lt _ (by norm_num))
  simp only [nibble, parseHex4, Nat.div_one, h1, h2, h3, h4]
  refine congrArg some (Prod.ext ?_ rfl)
  show ((n / 4096 % 16 * 16 + n / 256 % 16) * 16 + n / 16 % 16) * 16 + n % 16 = n
  omega

theorem parseStrBody_quote (f : Nat) (rest : List Char) :
    parseStrBody (f + 1) ('"' :: rest) = some ([], rest) := by
  simp +decide [parseStrBody]

theorem parseStrBody_esc_ok (f : Nat) (e ch : Char) (rest cs rem : List Char)
    (hu : (e == 'u') = false) (he : escMap e = some ch)
    (hrec : parseStrBody f rest = some (cs, rem)) :
    parseStrBody (f + 1) ('\\' :: e :: rest) = some (ch :: cs, rem) := by
  simp +decide [parseStrBody, hu, he, hrec]

theorem parseStrBody_plain_ok (f : Nat) (c : Char) (rest cs rem : List Char)
    (h1 : (c == '"') = false) (h2 : (c == '\\') = false) (h3 : ¬c.toNat < 0x20)
    (hrec : parseStrBody f rest = some (cs, rem)) :
    parseStrBody (f + 1) (c :: rest) = some (c :: cs, rem) := by
  simp [parseStrBody, h1, h2, h3, hrec]

theorem parseStrBody_u_ok (f n : Nat) (rest cs rem : List Char) (hn : n < 65536)
    (hs1 : ¬(55296 ≤ n ∧ n < 56320)) (hs2 : ¬(56320 ≤ n ∧ n < 57344))
    (hrec : parseStrBody f rest = some (cs, rem)) :
    parseStrBody (f + 1)
        ('\\' :: 'u' :: nibble n 4096 :: nibble n 256 :: nibble n 16 :: nibble n 1 :: rest) =
      some (Char.ofNat n :: cs, rem) := by
  simp +decide [parseStrBody, parseHex4_toHex n hn, hs1, hs2, hrec]

theorem parseStrBody_pair_ok (f n m : Nat) (rest cs rem : List Char)
    (hn16 : n < 65536) (hm16 : m < 65536)
    (hn : 55296 ≤ n ∧ n < 56320) (hm : 56320 ≤ m ∧ m < 57344)
    (hrec : parseStrBody f rest = some (cs, rem)) :
    parseStrBody (f + 1)
        ('\\' :: 'u' :: nibble n 4096 :: nibble n 256 :: nibble n 16 :: nibble n 1 ::
         '\\' :: 'u' :: nibble m 4096 :: nibble m 256 :: nibble m 16 :: nibble m 1 :: rest) =
      some (Char.ofNat (65536 + (n - 55296) * 1024 + (m - 56320)) :: cs, rem) := by
  simp +decide [parseStrBody, parseHex4_toHex n hn16, parseHex4_toHex m hm16, hn, hm, hrec]

theorem parseStrBody_encode :
    ∀ (cs rest : List Char) (fuel : Nat),
      ((cs.map encodeChar).flatten).length < fuel →
      parseStrBody fuel ((cs.map encodeChar).flatten ++ '"' :: rest) = some (cs, rest) := by
  intro cs
  induction cs with
  | nil =>
    intro rest fuel h
    cases fuel with
    | zero => omega
    | succ f => exact parseStrBody_quote f rest
  | cons c cs ih =>
    intro rest fuel h
    rw [List.map_cons, List.flatten_cons, List.append_assoc]
    rw [List.map_cons, List.flatten_cons, List.length_append] at h
    by_cases hA : c = '\\'
    · subst hA
      rw [show encodeChar '\\' = ['\\', '\\'] from by decide] at h ⊢
      cases fuel with
      | zero => omega
      | succ f =>
        have hf : (List.map encodeChar cs).flatten.length < f := by
          simp only [List.length_cons, List.length_nil] at h; omega
        exact parseStrBody_esc_ok f '\\' '\\' _ cs rest (by decide) (by decide) (ih rest f hf)
    · by_cases hB : c = '"'
      · subst hB
        rw [show encodeChar '"' = ['\\', '"'] from by decide] at h ⊢
        cases fuel with
        | zero => omega
        | succ f =>
          have hf : (List.map encodeChar cs).flatten.length < f := by
            simp only [List.length_cons, List.length_nil] at h; omega
          exact parseStrBody_esc_ok f '"' '"' _ cs rest (by decide) (by decide) (ih rest f hf)
      · by_cases hC : 0x20 ≤ c.toNat ∧ c.toNat ≤ 0x7e
        · have he : encodeChar c = [c] := by
            rw [encodeChar, if_neg (by simp [hA]), if_neg (by simp [hB]), if_pos hC]
          rw [he] at h ⊢
          cases fuel with
          | zero => omega
          | succ f =>
            have hf : (List.map encodeChar cs).flatten.length < f := by
              simp only [List.length_cons, List.length_nil] at h; omega
            exact parseStrBody_plain_ok f c _ cs rest (beq_eq_false_iff_ne.mpr hB)
              (beq_eq_false_iff_ne.mpr hA) (by omega) (ih rest f hf)
        · by_cases hD1 : c = '\x08'
          · subst hD1
            rw [show encodeChar '\x08' = ['\\', 'b'] from by decide] at h ⊢
            cases fuel with
            | zero => omega
            | succ f =>
              have hf : (List.map encodeChar cs).flatten.length < f := by
                simp only [List.length_cons, List.length_nil] at h; omega
              exact parseStrBody_esc_ok f 'b' '\x08' _ cs rest (by decide) (by decide)
                (ih rest f hf)
          · by_cases hD2 : c = '\t'
            · subst hD2
              rw [show encodeChar '\t' = ['\\', 't'] from by decide] at h ⊢
              cases fuel with
              | zero => omega
              | succ f =>
                have hf : (List.map encodeChar cs).flatten.length < f := by
                  simp only [List.length_cons, List.length_nil] at h; omega
                exact parseStrBody_esc_ok f 't' '\t' _ cs rest (by decide) (by decide)
                  (ih rest f hf)
            · by_cases hD3 : c = '\n'
              · subst hD3
                rw [show encodeChar '\n' = ['\\', 'n'] from by decide] at h ⊢
                cases fuel with
                | zero => omega
                | succ f =>
                  have hf : (List.map encodeChar cs).flatten.length < f := by
                    simp only [List.length_cons, List.length_nil] at h; omega
                  exact parseStrBody_esc_ok f 'n' '\n' _ cs rest (by decide) (by decide)
                    (ih rest f hf)
              · by_cases hD4 : c = '\x0c'
                · subst hD4
                  rw [show encodeChar '\x0c' = ['\\', 'f'] from by decide] at h ⊢
                  cases fuel with
                  | zero => omega
                  | succ f =>
                    have hf : (List.map encodeChar cs).flatten.length < f := by
                      simp only [List.length_cons, List.length_nil] at h; omega
                    exact parseStrBody_esc_ok f 'f' '\x0c' _ cs rest (by decide) (by decide)
                      (ih rest f hf)
                · by_cases hD5 : c = '\r'
                  · subst hD5
                    rw [show encodeChar '\r' = ['\\', 'r'] from by decide] at h ⊢
                    cases fuel with
                    | zero => omega
                    | succ f =>
                      have hf : (List.map encodeChar cs).flatten.length < f := by
                        simp only [List.length_cons, List.length_nil] at h; omega
                      exact parseStrBody_esc_ok f 'r' '\r' _ cs rest (by decide) (by decide)
                        (ih rest f hf)
                  · have hval := charValidRange c
                    by_cases hE : c.toNat < 0x10000
                    · have he : encodeChar c = uEsc c.toNat := by
                        rw [encodeChar, if_neg (by simp [hA]), if_neg (by simp [hB]),
                          if_neg hC, if_neg (by simp [hD1]), if_neg (by simp [hD2]),
                          if_neg (by simp [hD3]), if_neg (by simp [hD4]),
                          if_neg (by simp [hD5]), if_pos hE]
                      rw [he] at h ⊢
                      cases fuel with
                      | zero =>
                        simp only [uEsc, List.length_cons, List.length_nil] at h; omega
                      | succ f =>
                        have hf : (List.map encodeChar cs).flatten.length < f := by
                          simp only [uEsc, List.length_cons, List.length_nil] at h; omega
                        have hs1 : ¬(55296 ≤ c.toNat ∧ c.toNat < 56320) := by
                          rcases hval with hv | hv <;> omega
                        have hs2 : ¬(56320 ≤ c.toNat ∧ c.toNat < 57344) := by
                          rcases hval with hv | hv <;> omega
                        have hstep := parseStrBody_u_ok f c.toNat _ cs rest hE hs1 hs2
                          (ih rest f hf)
                        rw [Char.ofNat_toNat] at hstep
                        exact hstep
                    · have he : encodeChar c =
                          uEsc (0xd800 + (c.toNat - 0x10000) / 1024) ++
                          uEsc (0xdc00 + (c.toNat - 0x10000) % 1024) := by
                        rw [encodeChar, if_neg (by simp [hA]), if_neg (by simp [hB]),
                          if_neg hC, if_neg (by simp [hD1]), if_neg (by simp [hD2]),
                          if_neg (by simp [hD3]), if_neg (by simp [hD4]),
                          if_neg (by simp [hD5]), if_neg hE]
                      have hlt : c.toNat < 1114112 := by rcases hval with hv | hv <;> omega
                      rw [he] at h ⊢
                      cases fuel with
                      | zero =>
                        simp only [uEsc, List.length_cons, List.length_nil,
                          List.length_append] at h
                        omega
                      | succ f =>
                        have hf : (List.map encodeChar cs).flatten.length < f := by
                          simp only [uEsc, List.length_cons, List.length_nil,
                            List.length_append] at h
                          omega
                        have hstep := parseStrBody_pair_ok f
                          (55296 + (c.toNat - 65536) / 1024)
                          (56320 + (c.toNat - 65536) % 1024) _ cs rest
                          (by omega) (by omega) (by omega) (by omega) (ih rest f hf)
                        rw [show 65536 + (55296 + (c.toNat - 65536) / 1024 - 55296) * 1024 +
                            (56320 + (c.toNat - 65536) % 1024 - 56320) = c.toNat by omega,
                          Char.ofNat_toNat] at hstep
                        exact hstep

theorem encodeStr_cons (s : String) (l : List Char) :
    encodeStr s ++ l = '"' :: ((s.data.map encodeChar).flatten ++ '"' :: l) := by
  simp [encodeStr, List.append_assoc]

theorem skipWs_not_ws (c : Char) (h : jsonWs c = false) (l : List Char) :
    skipWs (c :: l) = c :: l := by
  simp [skipWs, List.dropWhile_cons, h]

theorem skipWs_ws (c : Char) (h : jsonWs c = true) (l : List Char) :
    skipWs (c :: l) = skipWs l := by
  simp [skipWs, List.dropWhile_cons, h]

theorem skipWs_encodeStr (s : String) (l : List Char) :
    skipWs (encodeStr s ++ l) = encodeStr s ++ l := by
  rw [encodeStr_cons]
  exact skipWs_not_ws '"' (by decide) _

theorem parseJString_encode (s : String) (rest : List Char) :
    parseJString (encodeStr s ++ rest) = some (s, rest) := by
  rw [encodeStr_cons]
  show (match parseStrBody (((s.data.map encodeChar).flatten ++ '"' :: rest).length + 1)
      ((s.data.map encodeChar).flatten ++ '"' :: rest) with
    | some (cs, rem) => some (String.mk cs, rem)
    | none => none) = some (s, rest)
  rw [parseStrBody_encode s.data rest _ (by simp [List.length_append]; omega)]

theorem parseMembers_last (f : Nat) (acc : List (String × String)) (k v : String) :
    parseMembers (f + 1) acc (encodeStr k ++ (':' :: ' ' :: (encodeStr v ++ ['\n', '}']))) =
      some (acc ++ [(k, v)]) := by
  have h1 := parseJString_encode k (':' :: ' ' :: (encodeStr v ++ ['\n', '}']))
  have h2 := parseJString_encode v ['\n', '}']
  simp only [parseMembers, h1, skipWs_not_ws ':' (by decide), skipWs_ws ' ' (by decide),
    skipWs_encodeStr, h2, skipWs_ws '\n' (by decide), skipWs_not_ws '}' (by decide)]
  simp [skipWs]

theorem parseMembers_more (f : Nat) (acc : List (String × String)) (k v : String)
    (tail : List Char) :
    parseMembers (f + 1) acc (encodeStr k ++ (':' :: ' ' :: (encodeStr v ++ (',' :: tail)))) =
      parseMembers f (acc ++ [(k, v)]) (skipWs tail) := by
  have h1 := parseJString_encode k (':' :: ' ' :: (encodeStr v ++ (',' :: tail)))
  have h2 := parseJString_encode v (',' :: tail)
  simp only [parseMembers, h1, skipWs_not_ws ':' (by decide), skipWs_ws ' ' (by decide),
    skipWs_encodeStr, h2, skipWs_not_ws ',' (by decide)]

theorem skipWs_dump_single (kv : String × String) :
    skipWs (dumpEntries [kv] ++ ['\n', '}']) =
      encodeStr kv.1 ++ (':' :: ' ' :: (encodeStr kv.2 ++ ['\n', '}'])) := by
  have h1 : dumpEntries [kv] ++ ['\n', '}'] =
      ' ' :: ' ' :: (encodeStr kv.1 ++ (':' :: ' ' :: (encodeStr kv.2 ++ ['\n', '}']))) := by
    simp [dumpEntries, dumpEntry, List.append_assoc]
  rw [h1, skipWs_ws ' ' (by decide), skipWs_ws ' ' (by decide), skipWs_encodeStr]

theorem skipWs_dump_more (kv kv2 : String × String) (rs : List (String × String)) :
    skipWs (dumpEntries (kv :: kv2 :: rs) ++ ['\n', '}']) =
      encodeStr kv.1 ++ (':' :: ' ' :: (encodeStr kv.2 ++
        (',' :: ('\n' :: (dumpEntries (kv2 :: rs) ++ ['\n', '}']))))) := by
  have h1 : dumpEntries (kv :: kv2 :: rs) ++ ['\n', '}'] =
      ' ' :: ' ' :: (encodeStr kv.1 ++ (':' :: ' ' :: (encodeStr kv.2 ++
        (',' :: ('\n' :: (dumpEntries (kv2 :: rs) ++ ['\n', '}'])))))) := by
    simp [dumpEntries, dumpEntry, List.append_assoc]
  rw [h1, skipWs_ws ' ' (by decide), skipWs_ws ' ' (by decide), skipWs_encodeStr]

theorem dumpEntries_length_ge : ∀ entries : List (String × String),
    entries.length ≤ (dumpEntries entries).length := by
  intro entries
  induction entries with
  | nil => simp [dumpEntries]
  | cons kv rest ih =>
    cases rest with
    | nil => simp [dumpEntries, dumpEntry]
    | cons kv2 rs =>
      calc (kv :: kv2 :: rs).length = (kv2 :: rs).length + 1 := by simp
      _ ≤ (dumpEntries (kv2 :: rs)).length + 1 := by omega
      _ ≤ (dumpEntries (kv :: kv2 :: rs)).length := by
          simp [dumpEntries, dumpEntry, List.length_append]; omega

theorem parseMembers_dumpEntries :
    ∀ (entries : List (String × String)) (acc : List (String × String)) (fuel : Nat),
      entries ≠ [] → entries.length ≤ fuel →
      parseMembers fuel acc (skipWs (dumpEntries entries ++ ['\n', '}'])) =
        some (acc ++ entries) := by
  intro entries
  induction entries with
  | nil => intro acc fuel h _; exact absurd rfl h
  | cons kv rest ih =>
    intro acc fuel _ hlen
    cases fuel with
    | zero => simp at hlen
    | succ f =>
      cases rest with
      | nil =>
        rw [skipWs_dump_single, parseMembers_last]
      | cons kv2 rs =>
        rw [skipWs_dump_more, parseMembers_more, skipWs_ws '\n' (by decide)]
        rw [ih (acc ++ [(kv.1, kv.2)]) f (by simp) (by simp at hlen ⊢; omega)]
        simp

theorem jsonLoadsObj_dumps (entries : List (String × String)) :
    jsonLoadsObj (jsonDumps entries) = some (sortByKey entries) := by
  unfold jsonDumps
  cases hs : sortByKey entries with
  | nil => decide
  | cons kv rest =>
    cases rest with
    | nil =>
      have hb : ([kv] : List (String × String)).length ≤
          (skipWs (dumpEntries [kv] ++ ['\n', '}'])).length + 1 := by
        simp only [List.length_cons, List.length_nil]
        omega
      exact parseMembers_dumpEntries [kv] [] _ (by simp) hb
    | cons kv2 rs =>
      have hb : (kv :: kv2 :: rs).length ≤
          (skipWs (dumpEntries (kv :: kv2 :: rs) ++ ['\n', '}'])).length + 1 := by
        rw [skipWs_dump_more kv kv2 rs]
        have hge := dumpEntries_length_ge (kv2 :: rs)
        simp only [List.length_append, List.length_cons] at hge ⊢
        omega
      exact parseMembers_dumpEntries (kv :: kv2 :: rs) [] _ (by simp) hb

theorem insertByKey_perm (kv : String × String) (l : List (String × String)) :
    (insertByKey kv l).Perm (kv :: l) := by
  induction l with
  | nil => exact List.Perm.refl _
  | cons kv2 rest ih =>
    unfold insertByKey
    split
    · exact List.Perm.refl _
    · exact (ih.cons kv2).trans (List.Perm.swap kv kv2 rest)

theorem sortByKey_perm (l : List (String × String)) : (sortByKey l).Perm l := by
  induction l with
  | nil => exact List.Perm.refl _
  | cons kv rest ih => exact (insertByKey_perm kv (sortByKey rest)).trans (ih.cons kv)

theorem lookupState_perm {l l' : List (String × String)} (h : l.Perm l') :
    (l.map Prod.fst).Nodup → ∀ k, lookupState l k = lookupState l' k := by
  induction h with
  | nil => intro _ k; rfl
  | cons x h ih =>
    intro hnd k
    obtain ⟨a, b⟩ := x
    simp only [List.map_cons, List.nodup_cons] at hnd
    show (if a == k then some b else lookupState _ k) =
      (if a == k then some b else lookupState _ k)
    rw [ih hnd.2 k]
  | swap x y l =>
    intro hnd k
    obtain ⟨a, b⟩ := x
    obtain ⟨c, d⟩ := y
    simp only [List.map_cons, List.nodup_cons, List.mem_cons] at hnd
    have hne : c ≠ a := fun hh => hnd.1 (Or.inl hh)
    show (if c == k then some d else if a == k then some b else lookupState l k) =
      (if a == k then some b else if c == k then some d else lookupState l k)
    split_ifs with h1 h2
    · simp only [beq_iff_eq] at h1 h2
      exact absurd (h1.trans h2.symm) hne
    · rfl
    · rfl
    · rfl
  | trans h1 h2 ih1 ih2 =>
    intro hnd k
    have hnd2 := ((h1.map Prod.fst).nodup_iff).mp hnd
    rw [ih1 hnd k, ih2 hnd2 k]

/-- Loading a payload written by `save_state` yields exactly the key-sorted
entry list. -/
theorem load_save_sorted (S : List (String × String)) :
    load_state (some (save_state_payload S)) = sortByKey S := by
  have h0 : load_state (some (save_state_payload S)) =
      (match jsonLoadsObj (jsonDumps S) with
       | none => []
       | some entries => entries) := rfl
  rw [h0, jsonLoadsObj_dumps]

/-- C5: `save_state` followed by `load_state` returns a map equal to the
saved one: the loaded entry list is a permutation of `S` and agrees with
`S` on every lookup, for every state with distinct keys (including the
empty one). -/
theorem state_roundtrip (S : List (String × String)) (hnd : (S.map Prod.fst).Nodup) :
    (load_state (some (save_state_payload S))).Perm S ∧
    (∀ k, lookupState (load_state (some (save_state_payload S))) k = lookupState S k) := by
  refine ⟨?_, ?_⟩
  · rw [load_save_sorted]
    exact sortByKey_perm S
  · intro k
    rw [load_save_sorted]
    exact lookupState_perm (sortByKey_perm S)
      (((sortByKey_perm S).map Prod.fst).nodup_iff.mpr hnd) k

/-- C5 witness: the theorem applied to the empty map and a two-entry map. -/
theorem state_roundtrip_witness :
    (load_state (some (save_state_payload []))).Perm ([] : List (String × String)) ∧
    (load_state (some (save_state_payload [("b", "2"), ("a", "1")]))).Perm
      [("b", "2"), ("a", "1")] ∧
    lookupState (load_state (some (save_state_payload [("b", "2"), ("a", "1")]))) "a" =
      lookupState [("b", "2"), ("a", "1")] "a" := by
  refine ⟨(state_roundtrip [] (by decide)).1, (state_roundtrip _ (by decide)).1,
    (state_roundtrip [("b", "2"), ("a", "1")] (by decide)).2 "a"⟩

/-- C9: the save discipline is atomic and crash-safe.  Running any prefix of
the operation sequence (a crash after `k` steps) leaves the target file
either the previously committed payload or the new payload — never a
partial write; before the rename it is exactly the old payload, which still
loads to the old map; from the rename on it is the new payload. -/
theorem save_state_crash_safe (Sold Snew : List (String × String))
    (hold : (Sold.map Prod.fst).Nodup) (k : Nat) :
    ((runFs ⟨some (save_state_payload Sold), none⟩
        ((saveOps (save_state_payload Snew)).take k)).target =
          some (save_state_payload Sold) ∨
     (runFs ⟨some (save_state_payload Sold), none⟩
        ((saveOps (save_state_payload Snew)).take k)).target =
          some (save_state_payload Snew)) ∧
    (k < 5 → (runFs ⟨some (save_state_payload Sold), none⟩
        ((saveOps (save_state_payload Snew)).take k)).target =
          some (save_state_payload Sold)) ∧
    (5 ≤ k → (runFs ⟨some (save_state_payload Sold), none⟩
        ((saveOps (save_state_payload Snew)).take k)).target =
          some (save_state_payload Snew)) ∧
    (∀ q, lookupState (load_state (some (save_state_payload Sold))) q =
      lookupState Sold q) := by
  have htarget : (runFs ⟨some (save_state_payload Sold), none⟩
      ((saveOps (save_state_payload Snew)).take k)).target =
        if k < 5 then some (save_state_payload Sold) else some (save_state_payload Snew) := by
    match k with
    | 0 => rfl
    | 1 => rfl
    | 2 => rfl
    | 3 => rfl
    | 4 => rfl
    | 5 => rfl
    | n + 6 =>
      rw [List.take_of_length_le (by simp [saveOps]), if_neg (show ¬(n + 6 < 5) by omega)]
      rfl
  refine ⟨?_, fun h => ?_, fun h => ?_, fun q => ?_⟩
  · rw [htarget]
    by_cases h : k < 5
    · exact Or.inl (by rw [if_pos h])
    · exact Or.inr (by rw [if_neg h])
  · rw [htarget, if_pos h]
  · rw [htarget, if_neg (by omega)]
  · rw [load_save_sorted]
    exact lookupState_perm (sortByKey_perm Sold)
      (((sortByKey_perm Sold).map Prod.fst).nodup_iff.mpr hold) q

/-- C9 witness: the theorem applied at a crash point between the temp write
and the rename. -/
theorem save_state_crash_safe_witness :
    (runFs ⟨some (save_state_payload [("a", "1")]), none⟩
        ((saveOps (save_state_payload [("b", "2")])).take 3)).target =
      some (save_state_payload [("a", "1")]) ∧
    lookupState (load_state (some (save_state_payload [("a", "1")]))) "a" =
      lookupState [("a", "1")] "a" := by
  have h := save_state_crash_safe [("a", "1")] [("b", "2")] (by decide) 3
  exact ⟨h.2.1 (by omega), h.2.2.2 "a"⟩

end Lustro

